import Mathlib

/-!
Verification of the heap-fragmentation measurement program
(`main_linux.cpp` and `main_windows.cpp`).

The development shallowly embeds the two platform variants:

* the Linux inspector `getHeapInfo`, which parses the textual
  `malloc_info` dump (searching for the first `<free>` / `</free>`
  markers, taking the `substr` between them with C++ `size_t`
  length arithmetic, and extracting every chunk-size token matching
  the regex pattern `<chunk size="(\d+)">` via `std::stoul`);
* the Windows inspector `GetHeapInfo`, which locks the heap, walks
  the enumerated entries accumulating sizes of non-busy entries,
  and unlocks;
* the per-timestep aggregation in `main` (Step B), which sums
  requested and committed sizes over the live-allocation vectors,
  takes the unsigned difference as internal fragmentation, and
  computes the external fragmentation ratio;
* the workload bookkeeping in `main` (Step A), which pushes onto
  `allocatedBlocks` and `requestedSizes` on successful allocation
  and erases the same index from both on a free.

Machine `size_t` / `SIZE_T` arithmetic (64-bit unsigned) is modelled
on `Nat` with explicit reduction modulo `2 ^ 64` exactly where the
C++ code performs wrapping operations (`+=` accumulation and the
`committed - requested` subtraction).  The C++ `double` ratio is
modelled with exact rational arithmetic (`ℚ`).
-/

set_option autoImplicit false

namespace Frag

/-- Two to the 64th power: one more than the largest value
representable in the 64-bit unsigned `size_t` / `unsigned long` of
the target platforms. -/
def E64 : Nat := 18446744073709551616

/-! ## Linux inspector: parsing the `malloc_info` dump -/

/-- The characters of the opening marker `"<free>"` searched for by
`info.find("<free>")`. -/
def freeOpen : List Char := ['<', 'f', 'r', 'e', 'e', '>']

/-- The characters of the closing marker `"</free>"` searched for by
`info.find("</free>")`. -/
def freeClose : List Char := ['<', '/', 'f', 'r', 'e', 'e', '>']

/-- The literal part `<chunk size="` of the regex
`<chunk size="(\d+)">` used to extract chunk-size tokens. -/
def chunkPat : List Char := ['<', 'c', 'h', 'u', 'n', 'k', ' ', 's', 'i', 'z', 'e', '=', '"']

/-- Prefix test: `hasPre pat l` is true when `pat` occurs at the very
start of `l` (character-by-character comparison). -/
def hasPre : List Char → List Char → Bool
  | [], _ => true
  | _ :: _, [] => false
  | p :: ps, c :: cs => if p = c then hasPre ps cs else false

/-- Substring search: `findTag pat l` is the index of the first
occurrence of `pat` in `l`, the embedding of `std::string::find`
(`none` plays the role of `npos`). -/
def findTag (pat : List Char) : List Char → Option Nat
  | [] => if pat = [] then some 0 else none
  | c :: rest =>
    if hasPre pat (c :: rest) then some 0
    else (findTag pat rest).map (fun n => n + 1)

/-- Anchored match: `matchAfter pat l` is the remainder of `l` after
`pat` when `pat` occurs at the start of `l`, and `none` otherwise. -/
def matchAfter : List Char → List Char → Option (List Char)
  | [], l => some l
  | _ :: _, [] => none
  | p :: ps, c :: cs => if p = c then matchAfter ps cs else none

/-- Splits a list into its maximal leading run of decimal digits
(the regex `\d+` is greedy) and the remainder. -/
def takeDigits : List Char → List Char × List Char
  | [] => ([], [])
  | c :: cs =>
    if c.isDigit then
      let p := takeDigits cs
      (c :: p.1, p.2)
    else ([], c :: cs)

/-- Attempts to match the regex `<chunk size="(\d+)">` at the start of
`l`.  On success, returns the captured digit token and the remainder
of `l` after the whole match (the `sregex_iterator` resumes there). -/
def tryChunkAt (l : List Char) : Option (List Char × List Char) :=
  match matchAfter chunkPat l with
  | none => none
  | some l1 =>
    match takeDigits l1 with
    | ([], _) => none
    | (d, r) =>
      match r with
      | '"' :: '>' :: r2 => some (d, r2)
      | _ => none

/-- Fuel-indexed scan for all non-overlapping matches of
`<chunk size="(\d+)">`, left to right, as `sregex_iterator` produces
them: at each position either the pattern matches (the token is
recorded and the scan resumes after the match) or the scan advances
one character.  Each step consumes at least one character, so fuel
equal to the length of the list always suffices. -/
def scanA : Nat → List Char → List (List Char)
  | _, [] => []
  | 0, _ :: _ => []
  | f + 1, c :: rest =>
    match tryChunkAt (c :: rest) with
    | some p => p.1 :: scanA f p.2
    | none => scanA f rest

/-- All chunk-size digit tokens of `l`, in order of occurrence: the
embedding of iterating `std::sregex_iterator` with the chunk regex. -/
def chunkScan (l : List Char) : List (List Char) :=
  scanA l.length l

/-- Decimal value of a digit token, as `std::stoul` computes it
(the scanner only produces tokens made of decimal digits). -/
def natOfDigits (l : List Char) : Nat :=
  l.foldl (fun n c => n * 10 + (c.toNat - 48)) 0

/-- The accumulation loop over the extracted tokens:
`chunkSize = stoul(tok)` throws `std::out_of_range` (modelled as
`Except.error`) when the value exceeds `ULONG_MAX = 2^64 - 1`;
otherwise `totalFree += chunkSize` wraps in `size_t` and
`biggestFree` is updated when `chunkSize > biggestFree`. -/
def scanChunks : List (List Char) → Nat × Nat → Except Unit (Nat × Nat)
  | [], acc => .ok acc
  | tok :: toks, acc =>
    if natOfDigits tok < E64 then
      scanChunks toks ((acc.1 + natOfDigits tok) % E64,
        if natOfDigits tok > acc.2 then natOfDigits tok else acc.2)
    else .error ()

/-- The free section selected by `getHeapInfo`:
`info.substr(free_start, free_end - free_start)` where `free_start`
and `free_end` come from `find`.  The subtraction is performed in
`size_t`, so it wraps modulo `2 ^ 64` when `free_end < free_start`,
and `substr` clamps the count to the remainder of the string. -/
def freeSec (info : List Char) : Option (List Char) :=
  match findTag freeOpen info, findTag freeClose info with
  | some s, some e => some ((info.drop s).take ((e + E64 - s) % E64))
  | _, _ => none

/-- Result of the Linux inspector: either a normal return of the pair
`{totalFree, biggestFree}` or an exception escaping the function
(the `try` block only catches `std::regex_error`, so an
`std::out_of_range` from `stoul` propagates out). -/
inductive LxResult where
  | ret (totalFree biggestFree : Nat)
  | thrown
deriving DecidableEq

/-- The Linux `getHeapInfo`: returns `{0, 0}` when `fmemopen` fails;
otherwise parses the dump text.  When either free-region marker is
absent the accumulators stay at their initial `0`; otherwise every
chunk token inside the selected section is parsed and accumulated. -/
def lxGetHeapInfo (fmemopenOk : Bool) (info : List Char) : LxResult :=
  if fmemopenOk then
    match freeSec info with
    | some sec =>
      match scanChunks (chunkScan sec) (0, 0) with
      | .ok p => .ret p.1 p.2
      | .error _ => .thrown
    | none => .ret 0 0
  else .ret 0 0

/-! ## Windows inspector: walking the heap entries -/

/-- One entry reported by `HeapWalk`: its size `cbData` and whether
`wFlags & PROCESS_HEAP_ENTRY_BUSY` is set. -/
structure HeapEntry where
  cbData : Nat
  busy : Bool
deriving DecidableEq

/-- How the `HeapWalk` loop ends: `GetLastError()` is either
`ERROR_NO_MORE_ITEMS` (normal exhaustion) or some other error code
(the walk failed partway). -/
inductive WalkEnd where
  | noMoreItems
  | failed (errCode : Nat)
deriving DecidableEq

/-- Observed state of the Windows heap for one inspection:
whether `HeapLock` succeeds, the entries `HeapWalk` successfully
enumerates before it returns false, and how the walk ends. -/
structure WinHeap where
  lockOk : Bool
  entries : List HeapEntry
  walkEnd : WalkEnd
deriving DecidableEq

/-- The loop body of `GetHeapInfo`: skip busy entries; for free
entries do `totalFree += entry.cbData` (a `SIZE_T` addition, wrapping
modulo `2 ^ 64`) and update `biggestFree` when `cbData` exceeds it. -/
def freeAccum (acc : Nat × Nat) (e : HeapEntry) : Nat × Nat :=
  if e.busy then acc
  else ((acc.1 + e.cbData) % E64, if e.cbData > acc.2 then e.cbData else acc.2)

/-- The Windows `GetHeapInfo`: `{0, 0}` when `HeapLock` fails;
otherwise the accumulated sums over the enumerated entries.  Note the
code only *prints* the error when the walk ended with a code other
than `ERROR_NO_MORE_ITEMS` — it still returns the sums accumulated
so far. -/
def winGetHeapInfo (h : WinHeap) : Nat × Nat :=
  if h.lockOk then h.entries.foldl freeAccum (0, 0) else (0, 0)

/-- State-passing view of one Windows inspection: `HeapLock`,
`HeapWalk` and `HeapUnlock` only read the heap bookkeeping (and
restore the lock), so the observed heap state after the call is the
state before it. -/
def winInspect (h : WinHeap) : (Nat × Nat) × WinHeap :=
  (winGetHeapInfo h, h)

/-- State-passing view of one Linux inspection: the dump text is a
function of the heap state, so with no intervening allocator activity
a second call reads the same text. -/
def lxInspect (st : Bool × List Char) : LxResult × (Bool × List Char) :=
  (lxGetHeapInfo st.1 st.2, st)

/-! ## Aggregation (Step B of the simulation loop) -/

/-- The per-timestep record filled by `main` (identical on both
platforms).  The C++ `double` field is modelled as an exact
rational. -/
structure HeapStats where
  timeStep : Int
  totalUserRequested : Nat
  totalHeapCommitted : Nat
  internalFragmentation : Nat
  totalFreeOnHeap : Nat
  biggestFreeBlock : Nat
  externalFragmentationRatio : ℚ
deriving DecidableEq

/-- The ratio expression
`(totalFree > 0) ? (1.0 - (double)biggestFree / totalFree) : 0.0`,
with the `double` arithmetic modelled exactly in `ℚ`. -/
def extFragRatio (totalFree biggestFree : Nat) : ℚ :=
  if totalFree > 0 then 1 - (biggestFree : ℚ) / (totalFree : ℚ) else 0

/-- The `totalUserRequested += requestedSizes[i]` accumulation over
the live allocations, each `+=` wrapping in `size_t`.  `live` lists
the `(requestedSize, committedSize)` pairs of the live
allocations. -/
def sumReq (live : List (Nat × Nat)) : Nat :=
  live.foldl (fun acc p => (acc + p.1) % E64) 0

/-- The `totalHeapCommitted += malloc_usable_size(...)` / `HeapSize`
accumulation over the live allocations, each `+=` wrapping in
`size_t`. -/
def sumCom (live : List (Nat × Nat)) : Nat :=
  live.foldl (fun acc p => (acc + p.2) % E64) 0

/-- Step B of the simulation loop: sums requested and committed
sizes over the live allocations, takes `internalFragmentation` as
the raw `size_t` difference `totalHeapCommitted - totalUserRequested`
(which wraps modulo `2 ^ 64` when committed < requested — there is no
clamp in the code), and fills the free-space fields from the
inspector's pair. -/
def aggregate (t : Int) (live : List (Nat × Nat)) (freeInfo : Nat × Nat) : HeapStats :=
  { timeStep := t
    totalUserRequested := sumReq live
    totalHeapCommitted := sumCom live
    internalFragmentation := (sumCom live + E64 - sumReq live) % E64
    totalFreeOnHeap := freeInfo.1
    biggestFreeBlock := freeInfo.2
    externalFragmentationRatio := extFragRatio freeInfo.1 freeInfo.2 }

/-! ## Workload bookkeeping (Step A of the simulation loop) -/

/-- The two parallel vectors of `main`: handles of live blocks and
the sizes that were requested for them (handles modelled as `Nat`
addresses). -/
structure SimState where
  allocatedBlocks : List Nat
  requestedSizes : List Nat
deriving DecidableEq

/-- One workload event: an allocation attempt (with its requested
size and the allocator's result — `none` when the allocation fails)
or one round of the conditional free (with the `rand()` draw used to
pick the index). -/
inductive SimOp where
  | alloc (size : Nat) (result : Option Nat)
  | tryFree (r : Nat)
deriving DecidableEq

/-- Step A semantics: a successful allocation pushes the handle onto
`allocatedBlocks` and the size onto `requestedSizes` (a failed one
pushes neither); when more than 20 blocks are live, the free erases
index `r % size()` from both vectors. -/
def applyOp (st : SimState) : SimOp → SimState
  | .alloc size result =>
    match result with
    | some h =>
      { allocatedBlocks := st.allocatedBlocks ++ [h]
        requestedSizes := st.requestedSizes ++ [size] }
    | none => st
  | .tryFree r =>
    if st.allocatedBlocks.length > 20 then
      let idx := r % st.allocatedBlocks.length
      { allocatedBlocks := st.allocatedBlocks.eraseIdx idx
        requestedSizes := st.requestedSizes.eraseIdx idx }
    else st

/-- Running a sequence of workload events from the initial empty
vectors. -/
def runOps (ops : List SimOp) : SimState :=
  ops.foldl applyOp ⟨[], []⟩

/-- The same evolution on the level of `(handle, requestedSize)`
pairs: a successful allocation appends one pair, a free erases one
pair. -/
def applyPairOp (ps : List (Nat × Nat)) : SimOp → List (Nat × Nat)
  | .alloc size result =>
    match result with
    | some h => ps ++ [(h, size)]
    | none => ps
  | .tryFree r =>
    if ps.length > 20 then ps.eraseIdx (r % ps.length) else ps

/-- Pair-level run of a sequence of workload events. -/
def runPairOps (ops : List SimOp) : List (Nat × Nat) :=
  ops.foldl applyPairOp []

/-- Decidable bound used to state that the chunk values of the
selected free section sum to less than `2 ^ 64` (so no `size_t` wrap
occurs in the `totalFree` accumulation). -/
def secSumOk : Option (List Char) → Bool
  | some sec => decide (((chunkScan sec).map natOfDigits).sum < E64)
  | none => true

/-! ## Helper lemmas -/

theorem E64_pos : 0 < E64 := by decide

theorem foldlMod_lt (g : Nat × Nat → Nat) (l : List (Nat × Nat)) :
    ∀ a : Nat, a < E64 → l.foldl (fun acc p => (acc + g p) % E64) a < E64 := by
  induction l with
  | nil => intro a ha; exact ha
  | cons p l ih => intro a _; exact ih _ (Nat.mod_lt _ E64_pos)

theorem sumReq_lt (live : List (Nat × Nat)) : sumReq live < E64 := by
  unfold sumReq
  exact foldlMod_lt Prod.fst live 0 E64_pos

theorem sumCom_lt (live : List (Nat × Nat)) : sumCom live < E64 := by
  unfold sumCom
  exact foldlMod_lt Prod.snd live 0 E64_pos

theorem scanChunks_le (toks : List (List Char)) :
    ∀ a b t bb : Nat, b ≤ a → a + (toks.map natOfDigits).sum < E64 →
      scanChunks toks (a, b) = .ok (t, bb) → bb ≤ t := by
  induction toks with
  | nil =>
    intro a b t bb hba _ hok
    simp only [scanChunks, Except.ok.injEq, Prod.mk.injEq] at hok
    omega
  | cons tok toks ih =>
    intro a b t bb hba hs hok
    simp only [List.map_cons, List.sum_cons] at hs
    have hv : natOfDigits tok < E64 := by omega
    simp only [scanChunks, if_pos hv] at hok
    have hmod : (a + natOfDigits tok) % E64 = a + natOfDigits tok :=
      Nat.mod_eq_of_lt (by omega)
    rw [hmod] at hok
    refine ih _ _ t bb ?_ (by omega) hok
    split <;> omega

theorem winFold_le (l : List HeapEntry) :
    ∀ a b : Nat, b ≤ a →
      a + ((l.filter (fun e => ! e.busy)).map HeapEntry.cbData).sum < E64 →
      (l.foldl freeAccum (a, b)).2 ≤ (l.foldl freeAccum (a, b)).1 := by
  induction l with
  | nil => intro a b hba _; exact hba
  | cons e l ih =>
    intro a b hba hs
    by_cases hbusy : e.busy = true
    · simp only [List.filter_cons, hbusy, Bool.not_true] at hs
      simp only [List.foldl_cons, freeAccum, if_pos hbusy]
      exact ih a b hba hs
    · simp only [Bool.not_eq_true] at hbusy
      simp [List.filter_cons, hbusy] at hs
      simp only [List.foldl_cons, freeAccum, hbusy, if_neg Bool.false_ne_true]
      have hmod : (a + e.cbData) % E64 = a + e.cbData := Nat.mod_eq_of_lt (by omega)
      rw [hmod]
      refine ih _ _ ?_ (by omega)
      split <;> omega

theorem zip_eraseIdx_eq {α β : Type} (a : List α) :
    ∀ (b : List β) (i : Nat),
      (a.eraseIdx i).zip (b.eraseIdx i) = (a.zip b).eraseIdx i := by
  induction a with
  | nil => intro b i; simp
  | cons x xs ih =>
    intro b i
    cases b with
    | nil => simp
    | cons y ys =>
      cases i with
      | zero =>
        simp only [List.eraseIdx, List.zip_cons_cons]
        rfl
      | succ j =>
        simp only [List.eraseIdx, List.zip_cons_cons, ih]
        rfl

theorem tryChunkAt_not_lt (c : Char) (h : ¬ ('<' = c)) (rest : List Char) :
    tryChunkAt (c :: rest) = none := by
  simp [tryChunkAt, chunkPat, matchAfter, h]

theorem tryChunkAt_lt_f (rest : List Char) :
    tryChunkAt ('<' :: 'f' :: rest) = none := by
  simp [tryChunkAt, chunkPat, matchAfter]

theorem scanA_step_none (f : Nat) (c : Char) (rest : List Char)
    (h : tryChunkAt (c :: rest) = none) :
    scanA (f + 1) (c :: rest) = scanA f rest := by
  simp [scanA, h]

/-- Scanning a section that starts with the `<free>` tag finds
exactly the chunk tokens of the rest of the section: no chunk match
can start inside the six characters of the tag. -/
theorem chunkScan_freeOpen_append (b : List Char) :
    chunkScan (freeOpen ++ b) = chunkScan b := by
  have h6 : (freeOpen ++ b).length = b.length + 6 := by
    simp [freeOpen]
    try omega
  unfold chunkScan
  rw [h6]
  show scanA (b.length + 6) ('<' :: 'f' :: 'r' :: 'e' :: 'e' :: '>' :: b) = scanA b.length b
  rw [show b.length + 6 = b.length + 5 + 1 by omega,
    scanA_step_none _ _ _ (tryChunkAt_lt_f _)]
  rw [show b.length + 5 = b.length + 4 + 1 by omega,
    scanA_step_none _ _ _ (tryChunkAt_not_lt 'f' (by decide) _)]
  rw [show b.length + 4 = b.length + 3 + 1 by omega,
    scanA_step_none _ _ _ (tryChunkAt_not_lt 'r' (by decide) _)]
  rw [show b.length + 3 = b.length + 2 + 1 by omega,
    scanA_step_none _ _ _ (tryChunkAt_not_lt 'e' (by decide) _)]
  rw [show b.length + 2 = b.length + 1 + 1 by omega,
    scanA_step_none _ _ _ (tryChunkAt_not_lt 'e' (by decide) _)]
  rw [scanA_step_none _ _ _ (tryChunkAt_not_lt '>' (by decide) _)]

/-! ## Claims -/

/-- C1 (counterexample): a dump that contains the free-region marker
`<free>…</free>` with chunk tokens `[100, 250, 50]` and a chunk token
`99999` outside it, yet on which the Inspector does NOT return
`(400, 250)` and DOES add the out-of-region token to both sums: a
stray `</free>` precedes the first `<free>`, so the `size_t` length
`free_end - free_start` wraps and the scanned section runs to the end
of the dump. -/
theorem c1_out_of_region_counted :
    lxGetHeapInfo true
        (("</free><free><chunk size=\"100\"><chunk size=\"250\"><chunk size=\"50\"></free><chunk size=\"99999\">").data)
      = LxResult.ret 100399 99999 ∧
    LxResult.ret 100399 99999 ≠ LxResult.ret 400 250 := by
  constructor <;> decide

/-- C1 (amended): for any dump laid out as
`a ++ "<free>" ++ b ++ "</free>" ++ c` in which the shown markers are
the FIRST occurrences (so the first `</free>` does not precede the
first `<free>`), whose free-region chunk tokens are `100, 250, 50`,
and which fits the inspector's buffer, `getHeapInfo` returns
`(400, 250)`: the surrounding text `a` and `c` — which may contain
arbitrary chunk tokens such as `<chunk size="99999">` — is never
scanned. -/
theorem c1_free_region_scoped (a b c : List Char)
    (h1 : findTag freeOpen (a ++ freeOpen ++ b ++ freeClose ++ c) = some a.length)
    (h2 : findTag freeClose (a ++ freeOpen ++ b ++ freeClose ++ c)
      = some (a.length + 6 + b.length))
    (hb : chunkScan b = [['1', '0', '0'], ['2', '5', '0'], ['5', '0']])
    (hlen : (a ++ freeOpen ++ b ++ freeClose ++ c).length < E64) :
    lxGetHeapInfo true (a ++ freeOpen ++ b ++ freeClose ++ c) = LxResult.ret 400 250 := by
  have hdump : (a ++ freeOpen ++ b ++ freeClose ++ c).length
      = a.length + 6 + b.length + 7 + c.length := by
    simp [freeOpen, freeClose]
    try omega
  have hTake : (a.length + 6 + b.length + E64 - a.length) % E64 = 6 + b.length := by
    rw [hdump] at hlen
    simp only [E64] at hlen ⊢
    omega
  have hsec : ((a ++ freeOpen ++ b ++ freeClose ++ c).drop a.length).take (6 + b.length)
      = freeOpen ++ b := by
    rw [show a ++ freeOpen ++ b ++ freeClose ++ c
        = a ++ ((freeOpen ++ b) ++ (freeClose ++ c)) by simp [List.append_assoc]]
    rw [List.drop_left]
    rw [show 6 + b.length = (freeOpen ++ b).length by simp [freeOpen]; try omega]
    exact List.take_left _ _
  unfold lxGetHeapInfo freeSec
  rw [if_pos rfl]
  simp only [h1, h2, hTake, hsec, chunkScan_freeOpen_append, hb]
  decide

/-- C1 (witness for the amended theorem): the stub dump
`<heap><chunk size="99999"><free><chunk size="100"><chunk size="250"><chunk size="50"></free><chunk size="99999">`
is well-formed and yields `(400, 250)`. -/
theorem c1_free_region_scoped_witness :
    lxGetHeapInfo true
        ((("<heap><chunk size=\"99999\">").data) ++ freeOpen
          ++ (("<chunk size=\"100\"><chunk size=\"250\"><chunk size=\"50\">").data)
          ++ freeClose ++ (("<chunk size=\"99999\">").data))
      = LxResult.ret 400 250 :=
  c1_free_region_scoped _ _ _ (by decide) (by decide) (by decide) (by decide)

/-- C2 (counterexample): with one live allocation whose requested
size is 1 and whose committed size is 0, the aggregation step sets
`internalFragmentation` to the wrapped value `2 ^ 64 - 1`, not 0:
the code computes the raw unsigned difference with no guard. -/
theorem c2_wrap_counterexample :
    (aggregate 0 [(1, 0)] (0, 0)).internalFragmentation = 18446744073709551615 ∧
    (18446744073709551615 : Nat) ≠ 0 := by
  constructor <;> decide

/-- C2 (amended): `internalFragmentation` is the raw `size_t`
difference `committed - requested` taken modulo `2 ^ 64`; whenever an
allocator reported committed < requested for the live set, the field
wraps to the huge value `2 ^ 64 - (requested - committed)` — in
particular it is never 0 in that situation. -/
theorem c2_internal_frag_wraps (t : Int) (live : List (Nat × Nat)) (fi : Nat × Nat)
    (h : (aggregate t live fi).totalHeapCommitted < (aggregate t live fi).totalUserRequested) :
    (aggregate t live fi).internalFragmentation
        = E64 - ((aggregate t live fi).totalUserRequested
          - (aggregate t live fi).totalHeapCommitted) ∧
    (aggregate t live fi).internalFragmentation ≠ 0 := by
  have hr := sumReq_lt live
  have hc := sumCom_lt live
  simp only [aggregate] at h ⊢
  simp only [E64] at hr hc ⊢
  omega

/-- C2 (witness for the amended theorem): the live set `[(1, 0)]`
has committed 0 < requested 1, and the field wraps to `2 ^ 64 - 1`. -/
theorem c2_internal_frag_wraps_witness :
    (aggregate 0 [(1, 0)] (0, 0)).internalFragmentation
        = E64 - ((aggregate 0 [(1, 0)] (0, 0)).totalUserRequested
          - (aggregate 0 [(1, 0)] (0, 0)).totalHeapCommitted) ∧
    (aggregate 0 [(1, 0)] (0, 0)).internalFragmentation ≠ 0 :=
  c2_internal_frag_wraps 0 [(1, 0)] (0, 0) (by decide)

/-- C4: the code does skip non-numeric tokens (the regex never
matches them), but an overflowing chunk-size token makes `stoul`
throw `std::out_of_range`, which the `catch (regex_error)` does not
handle: the inspection aborts with an escaped exception instead of
skipping the token or returning `(0, 0)`. -/
theorem c4_overflow_token_aborts :
    lxGetHeapInfo true (("<free><chunk size=\"18446744073709551616\"></free>").data)
      = LxResult.thrown ∧
    lxGetHeapInfo true (("<free><chunk size=\"abc\"><chunk size=\"100\"></free>").data)
      = LxResult.ret 100 100 := by
  constructor <;> decide

/-- C5: whenever either free-region marker is absent from the dump,
the Inspector returns `(0, 0)` and no exception escapes. -/
theorem c5_no_marker_returns_zero (fok : Bool) (info : List Char)
    (h : findTag freeOpen info = none ∨ findTag freeClose info = none) :
    lxGetHeapInfo fok info = LxResult.ret 0 0 := by
  cases fok with
  | false => rfl
  | true =>
    unfold lxGetHeapInfo freeSec
    rcases h1 : findTag freeOpen info with _ | s <;>
      rcases h2 : findTag freeClose info with _ | e <;>
        simp_all

/-- C5 (witness): a dump with chunk tokens but no markers yields
`(0, 0)`. -/
theorem c5_no_marker_returns_zero_witness :
    lxGetHeapInfo true (("<heap><chunk size=\"7\"></heap>").data) = LxResult.ret 0 0 :=
  c5_no_marker_returns_zero true _ (Or.inl (by decide))

/-- C3 (counterexample): when `HeapLock` succeeded but `HeapWalk`
failed partway (one free entry of size 5 was enumerated, then the
walk ended with an error code other than `ERROR_NO_MORE_ITEMS`), the
Windows Inspector returns the partial sums `(5, 5)`, not `(0, 0)`. -/
theorem c3_partial_sums_counterexample :
    winGetHeapInfo
        { lockOk := true
          entries := [{ cbData := 5, busy := false }]
          walkEnd := WalkEnd.failed 1 }
      = (5, 5) ∧ ((5, 5) : Nat × Nat) ≠ ((0, 0) : Nat × Nat) := by
  constructor <;> decide

/-- C3 (amended): the Inspector returns `(0, 0)` when the heap lock
cannot be acquired and when the dump stream cannot be opened; but
when the Windows heap walk fails partway, the error is only logged
and the sums accumulated over the entries enumerated so far are
returned (regardless of how the walk ended). -/
theorem c3_structural_failure_degrades :
    (∀ h : WinHeap, h.lockOk = false → winGetHeapInfo h = (0, 0)) ∧
    (∀ info : List Char, lxGetHeapInfo false info = LxResult.ret 0 0) ∧
    (∀ h : WinHeap, h.lockOk = true →
      winGetHeapInfo h = h.entries.foldl freeAccum (0, 0)) := by
  refine ⟨fun h hl => ?_, fun _ => rfl, fun h hl => ?_⟩ <;>
    simp [winGetHeapInfo, hl]

/-- C3 (witness): a failed lock gives `(0, 0)`, a failed `fmemopen`
gives `(0, 0)`, and a walk that enumerated one free entry of size 3
before failing gives the partial sums `(3, 3)`. -/
theorem c3_structural_failure_degrades_witness :
    winGetHeapInfo { lockOk := false, entries := [], walkEnd := WalkEnd.noMoreItems }
        = (0, 0) ∧
    lxGetHeapInfo false [] = LxResult.ret 0 0 ∧
    winGetHeapInfo
        { lockOk := true
          entries := [{ cbData := 3, busy := false }]
          walkEnd := WalkEnd.failed 5 }
      = (3, 3) :=
  ⟨c3_structural_failure_degrades.1 _ rfl,
   c3_structural_failure_degrades.2.1 _,
   (c3_structural_failure_degrades.2.2 _ rfl).trans (by decide)⟩

/-- C6 (counterexample): a dump whose free region holds two chunks of
`2 ^ 63` bytes each makes the `size_t` accumulation of `totalFree`
wrap to 0 while `biggestFree` stays `2 ^ 63`, so
`largestFree ≤ totalFree` fails for this dump text. -/
theorem c6_wrap_counterexample :
    lxGetHeapInfo true
        (("<free><chunk size=\"9223372036854775808\"><chunk size=\"9223372036854775808\"></free>").data)
      = LxResult.ret 0 9223372036854775808 ∧
    ¬ (9223372036854775808 ≤ (0 : Nat)) := by
  constructor <;> decide

/-- C6 (amended): whenever the chunk sizes of the scanned free
section sum to less than `2 ^ 64` (so the `size_t` accumulation does
not wrap — true of every dump a real heap can produce), the returned
pair satisfies `largestFree ≤ totalFree`; likewise on Windows
whenever the free entries' sizes sum to less than `2 ^ 64`. -/
theorem c6_largest_le_total :
    (∀ (info : List Char) (t b : Nat), secSumOk (freeSec info) = true →
      lxGetHeapInfo true info = LxResult.ret t b → b ≤ t) ∧
    (∀ (h : WinHeap) (t b : Nat),
      ((h.entries.filter (fun e => ! e.busy)).map HeapEntry.cbData).sum < E64 →
      winGetHeapInfo h = (t, b) → b ≤ t) := by
  constructor
  · intro info t b hsum hret
    rcases hfs : freeSec info with _ | sec
    · have heval : lxGetHeapInfo true info = LxResult.ret 0 0 := by
        unfold lxGetHeapInfo
        rw [if_pos rfl, hfs]
      rw [heval] at hret
      simp only [LxResult.ret.injEq] at hret
      omega
    · rw [hfs] at hsum
      simp only [secSumOk, decide_eq_true_eq] at hsum
      have heval : lxGetHeapInfo true info
          = (match scanChunks (chunkScan sec) (0, 0) with
             | Except.ok p => LxResult.ret p.1 p.2
             | Except.error _ => LxResult.thrown) := by
        unfold lxGetHeapInfo
        rw [if_pos rfl, hfs]
      rw [heval] at hret
      rcases hsc : scanChunks (chunkScan sec) (0, 0) with e | ⟨p1, p2⟩
      · rw [hsc] at hret
        simp at hret
      · rw [hsc] at hret
        simp only [LxResult.ret.injEq] at hret
        obtain ⟨rfl, rfl⟩ := hret
        exact scanChunks_le (chunkScan sec) 0 0 p1 p2 (Nat.le_refl 0) (by omega) hsc
  · intro h t b hsum hret
    unfold winGetHeapInfo at hret
    rcases hl : h.lockOk with _ | _
    · rw [hl, if_neg (by simp)] at hret
      simp only [Prod.mk.injEq] at hret
      omega
    · rw [hl, if_pos rfl] at hret
      have hle := winFold_le h.entries 0 0 (Nat.le_refl 0) (by omega)
      rw [hret] at hle
      exact hle

/-- C6 (witness): on the stub dump with free chunks `[100, 250, 50]`
the amended Linux statement gives `250 ≤ 400`, and on a Windows heap
with one free entry of size 7 it gives `7 ≤ 7`. -/
theorem c6_largest_le_total_witness : (250 : Nat) ≤ 400 ∧ (7 : Nat) ≤ 7 :=
  ⟨c6_largest_le_total.1
      (("<free><chunk size=\"100\"><chunk size=\"250\"><chunk size=\"50\"></free>").data)
      400 250 (by decide) (by decide),
   c6_largest_le_total.2
      { lockOk := true, entries := [{ cbData := 7, busy := false }],
        walkEnd := WalkEnd.noMoreItems }
      7 7 (by decide) (by decide)⟩

/-- C7: for every snapshot, `externalFragmentationRatio` equals
`1 - biggestFreeBlock / totalFreeOnHeap` when `totalFreeOnHeap > 0`,
equals 0 when `totalFreeOnHeap = 0` regardless of `biggestFreeBlock`,
and lies in `[0, 1]` whenever `biggestFreeBlock ≤ totalFreeOnHeap`. -/
theorem c7_ratio_formula (ts : Int) (live : List (Nat × Nat)) (tf bf : Nat) :
    ((0 < tf →
        (aggregate ts live (tf, bf)).externalFragmentationRatio
          = 1 - (bf : ℚ) / (tf : ℚ)) ∧
      (tf = 0 → (aggregate ts live (tf, bf)).externalFragmentationRatio = 0)) ∧
    (bf ≤ tf →
      0 ≤ (aggregate ts live (tf, bf)).externalFragmentationRatio ∧
        (aggregate ts live (tf, bf)).externalFragmentationRatio ≤ 1) := by
  have hagg : (aggregate ts live (tf, bf)).externalFragmentationRatio
      = extFragRatio tf bf := rfl
  rw [hagg]
  refine ⟨⟨fun h => ?_, fun h => ?_⟩, fun h => ?_⟩
  · rw [extFragRatio, if_pos h]
  · subst h
    rw [extFragRatio, if_neg (lt_irrefl 0)]
  · rcases Nat.eq_zero_or_pos tf with h0 | hpos
    · subst h0
      have hb : bf = 0 := Nat.le_zero.mp h
      subst hb
      rw [extFragRatio, if_neg (lt_irrefl 0)]
      norm_num
    · rw [extFragRatio, if_pos hpos]
      have htf : (0 : ℚ) < (tf : ℚ) := by exact_mod_cast hpos
      have hdiv1 : (bf : ℚ) / (tf : ℚ) ≤ 1 := by
        rw [div_le_one htf]
        exact_mod_cast h
      have hdiv0 : 0 ≤ (bf : ℚ) / (tf : ℚ) := by positivity
      constructor <;> linarith

/-- C7 (witness): with the Inspector pair `(3000, 1800)` the ratio is
`1 - 1800/3000` and lies in `[0, 1]`. -/
theorem c7_ratio_formula_witness :
    (aggregate 0 [] (3000, 1800)).externalFragmentationRatio
        = 1 - (1800 : ℚ) / (3000 : ℚ) ∧
    0 ≤ (aggregate 0 [] (3000, 1800)).externalFragmentationRatio ∧
      (aggregate 0 [] (3000, 1800)).externalFragmentationRatio ≤ 1 :=
  ⟨(c7_ratio_formula 0 [] 3000 1800).1.1 (by norm_num),
   (c7_ratio_formula 0 [] 3000 1800).2 (by norm_num)⟩

/-- C8: the end-to-end scenario — live set
`{(req 512, commit 520), (req 1000, commit 1000)}` and Inspector pair
`(3000, 1800)` — produces exactly the record of the specification,
with `externalFragmentationRatio = 1 - 1800/3000 = 2/5 = 0.4`. -/
theorem c8_end_to_end :
    (aggregate 0 [(512, 520), (1000, 1000)] (3000, 1800)).totalUserRequested = 1512 ∧
    (aggregate 0 [(512, 520), (1000, 1000)] (3000, 1800)).totalHeapCommitted = 1520 ∧
    (aggregate 0 [(512, 520), (1000, 1000)] (3000, 1800)).internalFragmentation = 8 ∧
    (aggregate 0 [(512, 520), (1000, 1000)] (3000, 1800)).totalFreeOnHeap = 3000 ∧
    (aggregate 0 [(512, 520), (1000, 1000)] (3000, 1800)).biggestFreeBlock = 1800 ∧
    (aggregate 0 [(512, 520), (1000, 1000)] (3000, 1800)).externalFragmentationRatio = 2 / 5 ∧
    (2 / 5 : ℚ) = 0.4 := by
  refine ⟨by decide, by decide, by decide, by decide, by decide, ?_, by norm_num⟩
  show extFragRatio 3000 1800 = 2 / 5
  rw [extFragRatio, if_pos (by norm_num)]
  norm_num

/-- C9: inspecting the same heap state twice with no intervening
allocation or free activity yields the identical pair on both calls:
the inspection reads (and restores) the heap bookkeeping without
changing it, on both platforms. -/
theorem c9_inspection_deterministic (h : WinHeap) (st : Bool × List Char) :
    (winInspect (winInspect h).2).1 = (winInspect h).1 ∧
    (lxInspect (lxInspect st).2).1 = (lxInspect st).1 :=
  ⟨rfl, rfl⟩

/-- Induction step for C10: starting from any state whose two vectors
have equal length, running any sequence of workload events keeps the
lengths equal and evolves the index-wise pairing of handle to
requested size exactly as the pair-level semantics does. -/
theorem runFrom_spec (ops : List SimOp) :
    ∀ st : SimState, st.allocatedBlocks.length = st.requestedSizes.length →
      (ops.foldl applyOp st).allocatedBlocks.length
          = (ops.foldl applyOp st).requestedSizes.length ∧
      (ops.foldl applyOp st).allocatedBlocks.zip (ops.foldl applyOp st).requestedSizes
          = ops.foldl applyPairOp (st.allocatedBlocks.zip st.requestedSizes) := by
  induction ops with
  | nil => intro st h; exact ⟨h, rfl⟩
  | cons op ops ih =>
    intro st h
    have hstep : (applyOp st op).allocatedBlocks.length
          = (applyOp st op).requestedSizes.length ∧
        (applyOp st op).allocatedBlocks.zip (applyOp st op).requestedSizes
          = applyPairOp (st.allocatedBlocks.zip st.requestedSizes) op := by
      cases op with
      | alloc size result =>
        cases result with
        | none => exact ⟨h, rfl⟩
        | some hdl =>
          constructor
          · simp [applyOp, h]
          · simp only [applyOp, applyPairOp]
            rw [List.zip_append h]
            rfl
      | tryFree r =>
        have hzl : (st.allocatedBlocks.zip st.requestedSizes).length
            = st.allocatedBlocks.length := by
          rw [List.length_zip]
          omega
        by_cases hgt : st.allocatedBlocks.length > 20
        · have hpos : 0 < st.allocatedBlocks.length := by omega
          have hidx : r % st.allocatedBlocks.length < st.allocatedBlocks.length :=
            Nat.mod_lt _ hpos
          have hidx2 : r % st.allocatedBlocks.length < st.requestedSizes.length := by
            omega
          constructor
          · simp only [applyOp, if_pos hgt]
            rw [List.length_eraseIdx, List.length_eraseIdx]
            simp [hidx, hidx2]
            omega
          · simp only [applyOp, applyPairOp, if_pos hgt, hzl, zip_eraseIdx_eq]
        · have hgt2 : ¬ (st.allocatedBlocks.zip st.requestedSizes).length > 20 := by
            omega
          constructor
          · simp only [applyOp, if_neg hgt]
            exact h
          · simp only [applyOp, applyPairOp, if_neg hgt, if_neg hgt2]
    obtain ⟨h1, h2⟩ := hstep
    have hrest := ih (applyOp st op) h1
    rw [List.foldl_cons, List.foldl_cons]
    rw [h2] at hrest
    exact hrest

/-- C10: running any sequence of workload events from the initial
empty vectors, `allocatedBlocks` and `requestedSizes` always have
equal length, and their index-wise zip evolves as a single list of
`(handle, requestedSize)` pairs — each successful allocation appends
one pair, each free erases one pair — so index `i` of both vectors
always refers to the same live allocation. -/
theorem c10_parallel_vectors (ops : List SimOp) :
    (runOps ops).allocatedBlocks.length = (runOps ops).requestedSizes.length ∧
    (runOps ops).allocatedBlocks.zip (runOps ops).requestedSizes = runPairOps ops := by
  have hrun := runFrom_spec ops ⟨[], []⟩ rfl
  simpa [runOps, runPairOps] using hrun

end Frag
